import Mathlib

/-!
Verification development for the go-sequence realtime engine.

This file shallowly embeds the queue-based sequencer devices (metropolix,
piano roll, drum machine) of the repository: Go `int`/`int64` become `Int`,
Go `float64` beat arithmetic becomes `ℚ` (the values in play are exact
dyadic rationals, and only additions, multiplications and comparisons on
them occur), Go slices become `List`, Go fixed arrays become functions
`Nat → _` with pointwise update, and `math/rand` draws are threaded as an
explicit stream `Nat → Nat` with a draw counter.  Loops whose bound is not
structural carry an explicit fuel parameter; every claim settled below is
insensitive to the fuel.
-/

/-- Truncation toward zero of a rational, the behaviour of Go's
`int64(float64)` / `int(float64)` conversions on in-range values. -/
def truncQ (q : ℚ) : Int := q.num.tdiv (q.den : Int)

/-- Go conversion `uint8(x)` for an arbitrary int `x`. -/
def u8 (x : Int) : Int := x.emod 256

/-- Go conversion `int16(x)` (two's-complement wraparound). -/
def i16 (x : Int) : Int := (x + 32768).emod 65536 - 32768

/-- Pulses per quarter note (`PPQ = 960` in the source). -/
def PPQ : Int := 960

/-- Ticks per sixteenth-note step (`PPQ / 4`). -/
def ticksPerStep : Int := PPQ / 4

/-- Number of patterns per device (`NumPatterns = 128`). -/
def NumPatterns : Int := 128

/-- MIDI message type tag `midi.NoteOn = 0x90`. -/
def noteOnType : Nat := 0x90
/-- MIDI message type tag `midi.NoteOff = 0x80`. -/
def noteOffType : Nat := 0x80
/-- MIDI message type tag `midi.PitchBend = 0xE0`. -/
def pitchBendType : Nat := 0xE0
/-- MIDI message type tag `midi.Trigger = 0xFF`. -/
def triggerType : Nat := 0xFF

/-- `midi.Event` from `midi/event.go`: absolute tick, type tag, note,
velocity and pitch-bend value.  Unset fields default to Go zero values. -/
structure MidiEvent where
  tick : Int := 0
  type : Nat := 0
  channel : Int := 0
  note : Int := 0
  velocity : Int := 0
  bendValue : Int := 0
deriving DecidableEq, Repr

/-- Ticks of an event list, in list order. -/
def ticksOf (l : List MidiEvent) : List Int := l.map (·.tick)

/-- Boolean check that a list of ticks is non-decreasing. -/
def nondecreasing : List Int → Bool
  | [] => true
  | [_] => true
  | a :: b :: rest => decide (a ≤ b) && nondecreasing (b :: rest)

/-- Pointwise update of a `Nat`-indexed map, modelling a Go array write. -/
def updF (f : Nat → Int) (i : Nat) (v : Int) : Nat → Int :=
  fun j => if j = i then v else f j

/-- Random stream: `rand.Intn` draws are read off a stream `Nat → Nat` at a
running index. -/
def Rng : Type := Nat → Nat

/-- Draw of `rand.Intn(n)` at stream position `ix` (value in `[0, n)` for
`n > 0`). -/
def randIntn (g : Rng) (ix : Nat) (n : Int) : Int :=
  Int.ofNat (g ix % n.toNat)

/-! ## Metropolix data model (`MetropolixState` and friends) -/

/-- `MetropolixStageState`: one stage's parameters. -/
structure MetroStage where
  octave : Int := 0
  note : Int := 0
  gate : Bool := false
  pulseCount : Int := 0
  ratchets : Int := 0
  probability : Int := 0
  slide : Bool := false
  gateLength : Int := 0
  accumulator : Int := 0
  accumReset : Int := 0
  accumMode : Int := 0
deriving DecidableEq, Repr

/-- `MetropolixPatternState`: 8 stages plus pattern-level settings. -/
structure MetroPattern where
  stages : Nat → MetroStage
  length : Int := 0
  mode : Int := 0
  scale : Int := 0
  rootNote : Int := 0
  slideTime : Int := 0

/-- The parts of `MetropolixState` read and written by playback:
patterns, playing/queued pattern, stage position, pendulum direction and
the per-stage accumulator runtime arrays. -/
structure MetroState where
  patterns : Nat → MetroPattern
  pattern : Int := 0
  next : Int := 0
  stage : Int := 0
  direction : Int := 0
  accum : Nat → Int
  accumCount : Nat → Int
  accumDir : Nat → Int

/-- The `scales` table from `metropolix.go` (`ScaleType` index to interval
list); a missing key yields the empty slice, as a Go map lookup does. -/
def scalesTable : Int → List Int
  | 0 => [0, 1, 2, 3, 4, 5, 6, 7, 8, 9, 10, 11]
  | 1 => [0, 2, 4, 5, 7, 9, 11, 12]
  | 2 => [0, 2, 3, 5, 7, 8, 10, 12]
  | 3 => [0, 2, 4, 7, 9, 12, 14, 16]
  | 4 => [0, 2, 3, 5, 7, 9, 10, 12]
  | 5 => [0, 1, 3, 5, 7, 8, 10, 12]
  | 6 => [0, 2, 4, 6, 7, 9, 11, 12]
  | 7 => [0, 2, 4, 5, 7, 9, 10, 12]
  | 8 => [0, 1, 3, 5, 6, 8, 10, 12]
  | 9 => [0, 2, 3, 5, 7, 8, 11, 12]
  | 10 => [0, 2, 3, 5, 7, 9, 11, 12]
  | 11 => [0, 3, 5, 6, 7, 10, 12, 15]
  | 12 => [0, 2, 4, 6, 8, 10, 12]
  | 13 => [0, 1, 3, 4, 6, 7, 9, 10]
  | 14 => [0, 2, 3, 5, 6, 8, 9, 11]
  | 15 => [0, 2, 3, 6, 7, 8, 11, 12]
  | 16 => [0, 1, 4, 5, 7, 8, 11, 12]
  | 17 => [0, 1, 4, 5, 7, 8, 10, 12]
  | 18 => [0, 2, 3, 7, 8, 12, 14, 15]
  | 19 => [0, 1, 5, 7, 10, 12, 13, 17]
  | 20 => [0, 2, 4, 7, 9, 12, 14, 16]
  | 21 => [0, 1, 3, 5, 7, 8, 10, 12]
  | _ => []

/-- The local `gateLengths` table of `GeneratePattern`
(`[]int64{0, 1, 2, 4, 8, 16}`). -/
def gateLengthsTable : List Int := [0, 1, 2, 4, 8, 16]

/-- `calculatePitch` from `metropolix.go`: scale-degree pitch of a stage of
the playing pattern, plus octave shift and accumulator offset, clamped to
the MIDI range. -/
def calculatePitch (st : MetroState) (stageIdx : Int) : Int :=
  let pat := st.patterns st.pattern.toNat
  let stage := pat.stages stageIdx.toNat
  let scale := scalesTable pat.scale
  let scaleLen : Int := Int.ofNat scale.length
  let noteIdx := stage.note.tmod scaleLen
  let octaveShift := stage.note.tdiv scaleLen
  let b0 := pat.rootNote + scale.getD noteIdx.toNat 0 + octaveShift * 12
  let b1 := b0 + (stage.octave - 4) * 12
  let b2 := b1 + st.accum stageIdx.toNat
  let b3 := if b2 < 0 then 0 else b2
  if b3 > 127 then 127 else b3

/-- `nextStage` from `metropolix.go`: the following stage index under the
pattern's playback mode; pendulum mode may flip `direction`, random mode
consumes one draw. -/
def nextStage (st : MetroState) (g : Rng) (rix : Nat) :
    Int × MetroState × Nat :=
  let pat := st.patterns st.pattern.toNat
  if pat.mode = 0 then
    ((st.stage + 1).tmod pat.length, st, rix)
  else if pat.mode = 1 then
    let nxt := st.stage - 1
    (if nxt < 0 then pat.length - 1 else nxt, st, rix)
  else if pat.mode = 2 then
    let nxt := st.stage + st.direction
    if nxt ≥ pat.length then
      let nxt2 := st.stage - 1
      (if nxt2 < 0 then 0 else nxt2, { st with direction := -1 }, rix)
    else if nxt < 0 then
      (if 1 ≥ pat.length then 0 else 1, { st with direction := 1 }, rix)
    else
      (nxt, st, rix)
  else if pat.mode = 3 then
    (randIntn g rix pat.length, st, rix + 1)
  else
    ((st.stage + 1).tmod pat.length, st, rix)

/-- `applyAccumulator` from `metropolix.go`: end-of-stage accumulator
update at stage index `i` of the playing pattern.  Note that the `Reset`
branch zeroes offset, count and direction and then still falls through to
the final increment; only the `Hold` branch returns early. -/
def applyAccumulator (st : MetroState) (i : Nat) : MetroState :=
  let pat := st.patterns st.pattern.toNat
  let stage := pat.stages i
  if stage.accumulator = 0 then st
  else
    let st :=
      if st.accumDir i = 0 then
        { st with accumDir := updF st.accumDir i 1 }
      else st
    let st := { st with accumCount := updF st.accumCount i (st.accumCount i + 1) }
    if stage.accumReset > 0 ∧ st.accumCount i ≥ stage.accumReset then
      if stage.accumMode = 0 then
        let st := { st with accum := updF st.accum i 0,
                            accumCount := updF st.accumCount i 0,
                            accumDir := updF st.accumDir i 1 }
        { st with accum := updF st.accum i (st.accum i + stage.accumulator * st.accumDir i) }
      else if stage.accumMode = 1 then
        let st := { st with accumDir := updF st.accumDir i (-(st.accumDir i)),
                            accumCount := updF st.accumCount i 0 }
        { st with accum := updF st.accum i (st.accum i + stage.accumulator * st.accumDir i) }
      else if stage.accumMode = 2 then
        { st with accumCount := updF st.accumCount i stage.accumReset }
      else
        { st with accum := updF st.accum i (st.accum i + stage.accumulator * st.accumDir i) }
    else
      { st with accum := updF st.accum i (st.accum i + stage.accumulator * st.accumDir i) }

/-- Iterated end-of-stage accumulator updates at a fixed stage index. -/
def accumIter (st : MetroState) (i : Nat) : Nat → MetroState
  | 0 => st
  | n + 1 => applyAccumulator (accumIter st i n) i

/-! ## Metropolix event generation (`GeneratePattern` and `FillUntil`) -/

/-- Ratchet loop of `GeneratePattern` for one stage: per ratchet, one
probability draw; on a hit, a NoteOn plus a NoteOff whose gate length is
taken from `gateLengthsTable` and clamped to the ratchet interval (stage
end for the last ratchet).  Returns the events and the new draw index. -/
def ratchetStep (g : Rng) (st : MetroState) (stage : MetroStage)
    (currentTick stageTicks ratchetInterval : Int)
    (acc : List MidiEvent × Nat) (r : Nat) : List MidiEvent × Nat :=
  let draw := randIntn g acc.2 100
  let ix := acc.2 + 1
  if draw ≥ stage.probability then (acc.1, ix)
  else
    let ratchetTick := currentTick + (Int.ofNat r) * ratchetInterval
    let pitch := calculatePitch st st.stage
    let onEv : MidiEvent :=
      { tick := ratchetTick, type := noteOnType, note := u8 pitch, velocity := 100 }
    let gt := (gateLengthsTable.getD stage.gateLength.toNat 0) * ticksPerStep
    if gt = 0 then
      (acc.1 ++ [onEv, { tick := ratchetTick, type := noteOffType, note := u8 pitch }], ix)
    else
      let maxGate :=
        if Int.ofNat r = stage.ratchets - 1 then
          stageTicks - (Int.ofNat r) * ratchetInterval
        else ratchetInterval
      let gt2 := if gt > maxGate then maxGate else gt
      (acc.1 ++ [onEv, { tick := ratchetTick + gt2, type := noteOffType, note := u8 pitch }], ix)

def ratchetEvents (g : Rng) (rix : Nat) (st : MetroState) (stage : MetroStage)
    (currentTick stageTicks : Int) : List MidiEvent × Nat :=
  let ratchetInterval0 := stageTicks.tdiv stage.ratchets
  let ratchetInterval := if ratchetInterval0 < 1 then 1 else ratchetInterval0
  (List.range stage.ratchets.toNat).foldl
    (ratchetStep g st stage currentTick stageTicks ratchetInterval)
    ([], rix)

/-- Slide block of `GeneratePattern`: when the outgoing stage has `Slide`
set, the next stage differs and `SlideTime > 0`, a ramp of `SlideTime`
PitchBend events at consecutive ticks from the stage end, followed by a
PitchBend reset.  The float `progress` arithmetic is carried exactly in
`ℚ` with the final `int16` truncation. -/
def slideEvents (st : MetroState) (stage : MetroStage) (slideTimePat : Int)
    (curStage nxt slideStartTick : Int) : List MidiEvent :=
  if stage.slide ∧ nxt ≠ curStage ∧ slideTimePat > 0 then
    let startPitch := calculatePitch st curStage
    let endPitch := calculatePitch st nxt
    ((List.range slideTimePat.toNat).map fun (i : Nat) =>
      let progress : ℚ := (i : ℚ) / (slideTimePat : ℚ)
      let bendSemitones : ℚ := ((endPitch - startPitch : Int) : ℚ) * progress
      { tick := slideStartTick + Int.ofNat i, type := pitchBendType,
        bendValue := i16 (truncQ (bendSemitones * 4096)) })
      ++ [{ tick := slideStartTick + slideTimePat, type := pitchBendType, bendValue := 0 }]
  else []

/-- One iteration of the stage loop of `GeneratePattern`: ratchet events of
the current stage of pattern `patternNum`, then the accumulator update,
the next-stage computation (which may flip the pendulum direction and
consume a draw) and the slide events; advances the tick by the stage span
and moves to the next stage. -/
def stepStage (g : Rng) (patternNum : Nat)
    (acc : MetroState × Nat × Int) : List MidiEvent × MetroState × Nat × Int :=
  let st := acc.1
  let rix := acc.2.1
  let currentTick := acc.2.2
  let pat := st.patterns patternNum
  let stage := pat.stages st.stage.toNat
  let stageTicks := stage.pulseCount * ticksPerStep
  let rats :=
    if stage.gate ∧ stage.ratchets > 0 then
      ratchetEvents g rix st stage currentTick stageTicks
    else ([], rix)
  let st1 := applyAccumulator st st.stage.toNat
  let ns := nextStage st1 g rats.2
  let slides := slideEvents ns.2.1 stage pat.slideTime st.stage ns.1 (currentTick + stageTicks)
  (rats.1 ++ slides, { ns.2.1 with stage := ns.1 }, ns.2.2, currentTick + stageTicks)

/-- `GeneratePattern` from `metropolix.go`: resets the stage position and
runs the stage loop `pat.Length` times, concatenating each stage's events
in emission order (no sorting happens here). -/
def generatePattern (g : Rng) (st : MetroState) (rix : Nat)
    (patternNum : Nat) (startTick : Int) : List MidiEvent × MetroState × Nat :=
  let init : List MidiEvent × MetroState × Nat × Int :=
    ([], { st with stage := 0 }, rix, startTick)
  let res := (List.range (st.patterns patternNum).length.toNat).foldl
    (fun acc _ =>
      let (evs, st', rix', tick') := acc
      let (evs2, st2, rix2, tick2) := stepStage g patternNum (st', rix', tick')
      (evs ++ evs2, st2, rix2, tick2))
    init
  (res.1, res.2.1, res.2.2.1)

/-- `fauxPatternLength`: total step count of one pass through the active
stages (sum of pulse counts). -/
def fauxPatternLength (st : MetroState) (patternNum : Nat) : Int :=
  (List.range (st.patterns patternNum).length.toNat).foldl
    (fun total i => total + ((st.patterns patternNum).stages i).pulseCount) 0

/-- `fauxPatternTicks`: the faux pattern length in ticks. -/
def fauxPatternTicks (st : MetroState) (patternNum : Nat) : Int :=
  fauxPatternLength st patternNum * ticksPerStep

/-- `MetropolixDevice`: state plus the event queue, the filled-until
watermark, the pattern start tick and the scheduled switch tick. -/
structure MetroDevice where
  state : MetroState
  queue : List MidiEvent := []
  queuedUntilTick : Int := 0
  patternStartTick : Int := 0
  nextPatternTick : Int := -1

/-- `ResetAccumulators` from the state type: zero offsets and counts,
directions back to `+1`. -/
def resetAccumulators (st : MetroState) : MetroState :=
  { st with accum := fun _ => 0, accumCount := fun _ => 0, accumDir := fun _ => 1 }

/-- Fill loop of `MetropolixDevice.FillUntil` with explicit fuel: while
the watermark is below the target, switch patterns at a reached boundary
(resetting accumulators) and append one generated faux cycle. -/
def metroFillLoop (g : Rng) : Nat → MetroState → Nat → Int → Int → Int → Int →
    List MidiEvent → List MidiEvent × MetroState × Nat × Int × Int × Int
  | 0, st, rix, queuedUntil, patternStart, nextPatTick, _, acc =>
      (acc, st, rix, queuedUntil, patternStart, nextPatTick)
  | fuel + 1, st, rix, queuedUntil, patternStart, nextPatTick, tick, acc =>
      if queuedUntil < tick then
        let (st1, patternStart1, nextPatTick1) :=
          if nextPatTick ≥ 0 ∧ queuedUntil ≥ nextPatTick then
            (resetAccumulators { st with pattern := st.next, next := -1 },
             nextPatTick, -1)
          else (st, patternStart, nextPatTick)
        let currentPattern := st1.pattern.toNat
        let (evs, st2, rix2) := generatePattern g st1 rix currentPattern queuedUntil
        metroFillLoop g fuel st2 rix2
          (queuedUntil + fauxPatternTicks st2 currentPattern)
          patternStart1 nextPatTick1 tick (acc ++ evs)
      else (acc, st, rix, queuedUntil, patternStart, nextPatTick)

/-- `MetropolixDevice.FillUntil`: early return when already filled to the
target, otherwise run the fill loop and append the fresh events. -/
def metroFillUntil (g : Rng) (fuel : Nat) (rix : Nat) (d : MetroDevice)
    (tick : Int) : MetroDevice × Nat :=
  if d.queuedUntilTick ≥ tick then (d, rix)
  else
    let (evs, st, rix', queuedUntil, patternStart, nextPatTick) :=
      metroFillLoop g fuel d.state rix d.queuedUntilTick d.patternStartTick
        d.nextPatternTick tick []
    ({ state := st, queue := d.queue ++ evs, queuedUntilTick := queuedUntil,
       patternStartTick := patternStart, nextPatternTick := nextPatTick }, rix')

/-- `MetropolixDevice.QueuePattern`: ignore out-of-range indices; otherwise
store the queued pattern, compute the next faux boundary strictly after
`atTick`, and if the queue was filled past that boundary drop the events
at or after it and pull the watermark back. -/
def metroQueuePattern (d : MetroDevice) (p atTick : Int) : MetroDevice :=
  if p < 0 ∨ p ≥ NumPatterns then d
  else
    let st := { d.state with next := p }
    let patternTicks := fauxPatternTicks st st.pattern.toNat
    let ticksSinceStart := atTick - d.patternStartTick
    let ticksIntoPattern := ticksSinceStart.tmod patternTicks
    let ticksToNextBoundary := patternTicks - ticksIntoPattern
    let boundaryTick := atTick + ticksToNextBoundary
    if d.queuedUntilTick > boundaryTick then
      { d with state := st,
               queue := d.queue.filter (fun e => decide (e.tick < boundaryTick)),
               queuedUntilTick := boundaryTick,
               nextPatternTick := boundaryTick }
    else
      { d with state := st, nextPatternTick := boundaryTick }

/-! ## Piano roll data model and operations (`pianoroll.go`) -/

/-- `NoteEventState`: one piano-roll note (beats carried exactly in `ℚ`). -/
structure PNote where
  start : ℚ := 0
  duration : ℚ := 0
  pitch : Int := 0
  velocity : Int := 0
deriving DecidableEq, Repr

/-- `PianoPatternState`: a note list and a length in beats. -/
structure PianoPattern where
  notes : List PNote := []
  length : ℚ := 0
deriving DecidableEq, Repr

/-- The parts of `PianoState` used by the claims: patterns, playing and
queued pattern, editing pattern, viewport and selection, recording flag. -/
structure PianoState where
  patterns : Nat → PianoPattern
  pattern : Int := 0
  next : Int := 0
  editing : Int := 0
  centerBeat : ℚ := 0
  centerPitch : ℚ := 0
  viewScale : Int := 0
  selectedNote : Int := 0
  recording : Bool := false

/-- Pointwise update of the pattern table. -/
def updPat (f : Nat → PianoPattern) (i : Nat) (v : PianoPattern) :
    Nat → PianoPattern :=
  fun j => if j = i then v else f j

/-- Pointwise update of the pending-note map (`pendingNotes`). -/
def updPend (f : Nat → Option PNote) (i : Nat) (v : Option PNote) :
    Nat → Option PNote :=
  fun j => if j = i then v else f j

/-- `PianoRollDevice`: state, pending recording notes, event queue,
watermark, pattern start and scheduled switch tick. -/
structure PianoDevice where
  state : PianoState
  pending : Nat → Option PNote := fun _ => none
  queue : List MidiEvent := []
  queuedUntilTick : Int := 0
  patternStartTick : Int := 0
  nextPatternTick : Int := -1

/-- `ViewScales` table (beats per column). -/
def viewScalesTable : List ℚ :=
  [1/32, 1/16, 1/8, 1/4, 1/2, 1, 2, 4]

/-- Insertion of an event into a tick-sorted list (strictly-less
comparator, as `sort.Slice` uses `Tick < Tick`). -/
def insertByTick (e : MidiEvent) : List MidiEvent → List MidiEvent
  | [] => [e]
  | f :: fs => if e.tick < f.tick then e :: f :: fs else f :: insertByTick e fs

/-- Sort of an event list by tick; this embeds the `sort.Slice` call of
the piano `GeneratePattern` (the Go sort is unstable, so any tick-sorted
permutation is a faithful model). -/
def sortByTick : List MidiEvent → List MidiEvent
  | [] => []
  | e :: es => insertByTick e (sortByTick es)

/-- `PianoRollDevice.GeneratePattern`: NoteOn/NoteOff pair per note at
beat-scaled ticks, then sorted by tick. -/
def pianoGeneratePattern (st : PianoState) (patternNum : Nat)
    (startTick : Int) : List MidiEvent :=
  let pat := st.patterns patternNum
  sortByTick (pat.notes.foldl
    (fun evs note =>
      evs ++
        [{ tick := startTick + truncQ (note.start * (PPQ : Int)),
           type := noteOnType, note := note.pitch, velocity := note.velocity },
         { tick := startTick + truncQ ((note.start + note.duration) * (PPQ : Int)),
           type := noteOffType, note := note.pitch }])
    [])

/-- `patternLengthTicks` of the piano device (`int64(Length * PPQ)`). -/
def pianoPatternLengthTicks (st : PianoState) (patternNum : Nat) : Int :=
  truncQ ((st.patterns patternNum).length * (PPQ : Int))

/-- Fill loop of `PianoRollDevice.FillUntil` with explicit fuel; the
pattern switch at a reached boundary stores `next` as the playing pattern
(without clearing `next`) and moves the pattern start. -/
def pianoFillLoop : Nat → PianoState → Int → Int → Int → Int →
    List MidiEvent → List MidiEvent × PianoState × Int × Int × Int
  | 0, st, queuedUntil, patternStart, nextPatTick, _, acc =>
      (acc, st, queuedUntil, patternStart, nextPatTick)
  | fuel + 1, st, queuedUntil, patternStart, nextPatTick, tick, acc =>
      if queuedUntil < tick then
        let (st1, patternStart1, nextPatTick1) :=
          if nextPatTick ≥ 0 ∧ queuedUntil ≥ nextPatTick then
            ({ st with pattern := st.next }, nextPatTick, -1)
          else (st, patternStart, nextPatTick)
        let currentPattern := st1.pattern.toNat
        let evs := pianoGeneratePattern st1 currentPattern queuedUntil
        pianoFillLoop fuel st1
          (queuedUntil + pianoPatternLengthTicks st1 currentPattern)
          patternStart1 nextPatTick1 tick (acc ++ evs)
      else (acc, st, queuedUntil, patternStart, nextPatTick)

/-- `PianoRollDevice.FillUntil`: early return when already filled to the
target, otherwise run the fill loop and append the fresh events. -/
def pianoFillUntil (fuel : Nat) (d : PianoDevice) (tick : Int) :
    PianoDevice :=
  if d.queuedUntilTick ≥ tick then d
  else
    let (evs, st, queuedUntil, patternStart, nextPatTick) :=
      pianoFillLoop fuel d.state d.queuedUntilTick d.patternStartTick
        d.nextPatternTick tick []
    { d with state := st, queue := d.queue ++ evs,
             queuedUntilTick := queuedUntil,
             patternStartTick := patternStart,
             nextPatternTick := nextPatTick }

/-- `PianoRollDevice.QueuePattern`: ignore out-of-range indices; otherwise
store the queued pattern, compute the next pattern boundary strictly after
`atTick`, and if the queue was filled past that boundary drop the events
at or after it and pull the watermark back. -/
def pianoQueuePattern (d : PianoDevice) (patIdx atTick : Int) : PianoDevice :=
  if patIdx < 0 ∨ patIdx ≥ NumPatterns then d
  else
    let st := { d.state with next := patIdx }
    let patternTicks := pianoPatternLengthTicks st st.pattern.toNat
    let ticksSinceStart := atTick - d.patternStartTick
    let ticksIntoPattern := ticksSinceStart.tmod patternTicks
    let ticksToNextBoundary := patternTicks - ticksIntoPattern
    let boundaryTick := atTick + ticksToNextBoundary
    if d.queuedUntilTick > boundaryTick then
      { d with state := st,
               queue := d.queue.filter (fun e => decide (e.tick < boundaryTick)),
               queuedUntilTick := boundaryTick,
               nextPatternTick := boundaryTick }
    else
      { d with state := st, nextPatternTick := boundaryTick }

/-- `currentBeat` of the piano device: beat position inside the playing
pattern derived from the global tick. -/
def pianoCurrentBeat (d : PianoDevice) (globalTick : Int) : ℚ :=
  let ticksSinceStart0 := globalTick - d.patternStartTick
  let ticksSinceStart := if ticksSinceStart0 < 0 then 0 else ticksSinceStart0
  let pat := d.state.patterns d.state.pattern.toNat
  let patternTicks := truncQ (pat.length * (PPQ : Int))
  let tickInPattern := ticksSinceStart.tmod patternTicks
  (tickInPattern : ℚ) / (PPQ : Int)

/-- Quantization to the nearest sixteenth
(`float64(int(b*4 + 0.5)) / 4.0`). -/
def quantizeBeat (b : ℚ) : ℚ := (truncQ (b * 4 + 1/2) : Int) / 4

/-- The note a `HandleMIDI` NoteOff completes from the pending note `pn`:
duration from the quantized off-beat minus the start, clamped to at least
a sixteenth. -/
def recordedNote (d : PianoDevice) (globalTick : Int) (pn : PNote) : PNote :=
  let endBeat := quantizeBeat (pianoCurrentBeat d globalTick)
  let duration0 := endBeat - pn.start
  { pn with duration := if duration0 < 1/4 then 1/4 else duration0 }

/-- `PianoRollDevice.HandleMIDI`: while playing and recording, a NoteOn
opens a pending note at the quantized current beat; a NoteOff (or zero
velocity NoteOn) with a matching pending note completes it — duration from
the quantized off-beat, clamped to at least a sixteenth — and appends it
to the editing pattern's note list (no re-sort happens here). -/
def pianoHandleMIDI (d : PianoDevice) (playing : Bool) (globalTick : Int)
    (ev : MidiEvent) : PianoDevice :=
  if ¬ (playing ∧ d.state.recording) then d
  else
    let pattern := d.state.patterns d.state.editing.toNat
    let currentBeat := pianoCurrentBeat d globalTick
    let quantized := quantizeBeat currentBeat
    if ev.type = noteOnType ∧ ev.velocity > 0 then
      let opened : PNote := { start := quantized, pitch := ev.note, velocity := ev.velocity }
      { d with pending := updPend d.pending ev.note.toNat (some opened) }
    else if ev.type = noteOffType ∨ (ev.type = noteOnType ∧ ev.velocity = 0) then
      match d.pending ev.note.toNat with
      | some pendingN =>
        let completed := recordedNote d globalTick pendingN
        { d with
            state := { d.state with
              patterns := updPat d.state.patterns d.state.editing.toNat
                { pattern with notes := pattern.notes ++ [completed] } },
            pending := updPend d.pending ev.note.toNat none }
      | none => d
    else d

/-- `centerOnSelection`: move the viewport onto the selected note. -/
def centerOnSelection (d : PianoDevice) : PianoDevice :=
  let s := d.state
  let pat := s.patterns s.editing.toNat
  if 0 ≤ s.selectedNote ∧ s.selectedNote < (pat.notes.length : Int) then
    match pat.notes.get? s.selectedNote.toNat with
    | some n => { d with state := { s with centerBeat := n.start, centerPitch := (n.pitch : ℚ) } }
    | none => d
  else d

/-- Pitch of a `HandlePad` tap (`uint8(int(CenterPitch) - 4 + row)`). -/
def padPitch (s : PianoState) (row : Int) : Int :=
  u8 (truncQ s.centerPitch - 4 + row)

/-- Beat of a `HandlePad` tap
(`CenterBeat - 4*viewScale + col*viewScale`). -/
def padBeat (s : PianoState) (col : Int) : ℚ :=
  let viewScale := viewScalesTable.getD s.viewScale.toNat 0
  s.centerBeat - 4 * viewScale + (col : ℚ) * viewScale

/-- The note a `HandlePad` tap inserts: one view-scale cell long, at least
a sixteenth. -/
def padNote (s : PianoState) (row col : Int) : PNote :=
  let viewScale := viewScalesTable.getD s.viewScale.toNat 0
  let n : PNote := { start := padBeat s col, duration := viewScale,
                     pitch := padPitch s row, velocity := 100 }
  if n.duration < 1/4 then { n with duration := 1/4 } else n

/-- First note index overlapping the tapped cell (the linear scan of
`HandlePad`). -/
def findOverlap (notes : List PNote) (pitch : Int) (beat beatEnd : ℚ) :
    Option Nat :=
  go notes 0
where
  go : List PNote → Nat → Option Nat
    | [], _ => none
    | n :: ns, i =>
      if n.pitch = pitch ∧ n.start < beatEnd ∧ n.start + n.duration > beat then
        some i
      else go ns (i + 1)

/-- `PianoRollDevice.HandlePad`: map the pad cell to a pitch and beat; out
of range taps are ignored; a tap on an existing note selects it; otherwise
a new note of one cell's duration (at least a sixteenth) is appended to
the editing pattern's note list (no re-sort happens here). -/
def pianoHandlePad (d : PianoDevice) (row col : Int) : PianoDevice :=
  let s := d.state
  let pat := s.patterns s.editing.toNat
  let viewScale := viewScalesTable.getD s.viewScale.toNat 0
  let pitch := padPitch s row
  let beat := padBeat s col
  let beatEnd := beat + viewScale
  if beat < 0 ∨ beat ≥ pat.length ∨ pitch > 127 then d
  else
    match findOverlap pat.notes pitch beat beatEnd with
    | some i =>
        centerOnSelection { d with state := { s with selectedNote := (i : Int) } }
    | none =>
        centerOnSelection
          { d with state := { s with
              patterns := updPat s.patterns s.editing.toNat
                { pat with notes := pat.notes ++ [padNote s row col] },
              selectedNote := (pat.notes.length : Int) } }

/-- Insertion into a start-sorted note list (strictly-less comparator, as
the `sort.Slice` at the end of the piano `HandleKey` uses
`Start < Start`). -/
def insertByStart (n : PNote) : List PNote → List PNote
  | [] => [n]
  | m :: ms => if n.start < m.start then n :: m :: ms else m :: insertByStart n ms

/-- Sort of a note list by start beat; this embeds the `sort.Slice` call
performed at the end of every `HandleKey` invocation. -/
def sortByStart : List PNote → List PNote
  | [] => []
  | n :: ns => insertByStart n (sortByStart ns)

/-- Boolean check that a note list is sorted by non-decreasing start. -/
def sortedByStart : List PNote → Bool
  | [] => true
  | [_] => true
  | a :: b :: rest => decide (a.start ≤ b.start) && sortedByStart (b :: rest)

/-! ## Drum device data model and operations (state-based `DrumDevice`) -/

/-- `DrumStepState`: one step of a drum lane. -/
structure DrumStep where
  active : Bool := false
  velocity : Int := 0
deriving DecidableEq, Repr

/-- `DrumNoteState`: one drum lane with its own length (polymeter). -/
structure DrumNote where
  steps : Nat → DrumStep
  length : Int := 0

/-- `DrumPatternState`: 16 lanes. -/
structure DrumPat where
  notes : Nat → DrumNote

/-- The parts of `DrumState` used by the claims. -/
structure DrumState where
  patterns : Nat → DrumPat
  playingPatternIdx : Int := 0
  next : Int := 0
  editingPatternIdx : Int := 0

/-- The state-based `DrumDevice`: state, schedule (source of truth for
what plays when), dirty flags and the derived event queue. -/
structure DrumDevice where
  state : DrumState
  scheduleStartTick : Int := 0
  schedulePatterns : List Int := []
  patternDirty : Nat → Bool := fun _ => false
  queue : List MidiEvent := []

/-- `MasterLength`: the longest lane length of a drum pattern (at least
one). -/
def masterLength (p : DrumPat) : Int :=
  (List.range 16).foldl
    (fun mx i => if (p.notes i).length > mx then (p.notes i).length else mx) 1

/-- `patternLengthTicks` of the drum device
(`int64(MasterLength()) * (PPQ / 4)`). -/
def drumPatternLengthTicks (st : DrumState) (patternNum : Nat) : Int :=
  masterLength (st.patterns patternNum) * ticksPerStep

/-- `DrumDevice.GeneratePattern`: for every step up to the master length
and every lane (wrapping at the lane's own length), an active step emits a
`Trigger` carrying the lane index as note. -/
def drumGeneratePattern (st : DrumState) (patternNum : Nat)
    (startTick : Int) : List MidiEvent :=
  let pat := st.patterns patternNum
  let masterLen := masterLength pat
  (List.range masterLen.toNat).foldl
    (fun evs step =>
      let stepTick := startTick + (Int.ofNat step) * ticksPerStep
      (List.range 16).foldl
        (fun evs2 noteIdx =>
          let note := pat.notes noteIdx
          let noteStep := (Int.ofNat step).tmod note.length
          let s := note.steps noteStep.toNat
          if s.active then
            evs2 ++ [{ tick := stepTick, type := triggerType,
                       note := (noteIdx : Int), velocity := s.velocity }]
          else evs2)
        evs)
    []

/-- `scheduleEndTick`: tick where the schedule ends. -/
def scheduleEndTick (st : DrumState) (startTick : Int)
    (pats : List Int) : Int :=
  pats.foldl (fun tick patIdx => tick + drumPatternLengthTicks st patIdx.toNat)
    startTick

/-- `extendSchedule` with explicit fuel: append the last scheduled pattern
(or pattern 0) until the schedule covers the target tick. -/
def extendSchedule (st : DrumState) : Nat → Int → List Int → Int → List Int
  | 0, _, pats, _ => pats
  | fuel + 1, startTick, pats, targetTick =>
    if scheduleEndTick st startTick pats < targetTick then
      let lastPat := if pats ≠ [] then pats.getLast! else 0
      extendSchedule st fuel startTick (pats ++ [lastPat]) targetTick
    else pats

/-- `scheduleContainsDirty`: some scheduled pattern is marked dirty. -/
def scheduleContainsDirty (dirty : Nat → Bool) (pats : List Int) : Bool :=
  pats.any (fun patIdx => dirty patIdx.toNat)

/-- `syncQueueToSchedule`: when some scheduled pattern is dirty, rebuild
the whole queue by walking the schedule, update the playing pattern to the
schedule head and clear the dirty flags. -/
def syncQueueToSchedule (d : DrumDevice) : DrumDevice :=
  if ¬ scheduleContainsDirty d.patternDirty d.schedulePatterns then d
  else
    let newQueue :=
      (d.schedulePatterns.foldl
        (fun (acc : List MidiEvent × Int) patIdx =>
          (acc.1 ++ drumGeneratePattern d.state patIdx.toNat acc.2,
           acc.2 + drumPatternLengthTicks d.state patIdx.toNat))
        ([], d.scheduleStartTick)).1
    let st :=
      match d.schedulePatterns with
      | p0 :: _ => { d.state with playingPatternIdx := p0 }
      | [] => d.state
    { d with state := st, queue := newQueue, patternDirty := fun _ => false }

/-- Slot walk of `DrumDevice.QueuePattern`: find the schedule slot that
contains `atTick` and replace every slot after it with `p` (appending `p`
when the containing slot is the last one); the boolean records whether a
containing slot was found. -/
def replaceAfterSlot (st : DrumState) (p atTick : Int) :
    Int → List Int → List Int × Bool
  | _, [] => ([], false)
  | tick, q :: rest =>
    let patLen := drumPatternLengthTicks st q.toNat
    if tick + patLen > atTick then
      (q :: (if rest = [] then [p] else rest.map (fun _ => p)), true)
    else
      let (rest', found) := replaceAfterSlot st p atTick (tick + patLen) rest
      (q :: rest', found)

/-- `DrumDevice.QueuePattern`: ignore out-of-range indices; otherwise
extend the schedule to cover `atTick`, replace everything after the slot
containing `atTick` with `p` (appending when no slot contains it), mark
`p` dirty and resync the queue. -/
def drumQueuePattern (fuel : Nat) (d : DrumDevice) (p atTick : Int) :
    DrumDevice :=
  if p < 0 ∨ p ≥ NumPatterns then d
  else
    let st := { d.state with next := p }
    let pats := extendSchedule st fuel d.scheduleStartTick d.schedulePatterns atTick
    let (pats', found) := replaceAfterSlot st p atTick d.scheduleStartTick pats
    let pats'' := if found then pats' else pats' ++ [p]
    syncQueueToSchedule
      { d with state := st, schedulePatterns := pats'',
               patternDirty := fun j => if j = p.toNat then true else d.patternDirty j }

/-! ## Derived formulas and concrete example configurations -/

/-- Compact form of the accumulator transition on the triple
(offset, count, direction) at one stage, read off `applyAccumulator`;
proved below to agree with the source embedding. -/
def accStep (a r m : Int) (t : Int × Int × Int) : Int × Int × Int :=
  let o := t.1
  let c0 := t.2.1
  let d0 := t.2.2
  let d := if d0 = 0 then 1 else d0
  let c := c0 + 1
  if r > 0 ∧ c ≥ r then
    if m = 0 then (a, 0, 1)
    else if m = 1 then (o + a * (-d), 0, -d)
    else if m = 2 then (o, r, d)
    else (o + a * d, c, d)
  else (o + a * d, c, d)

/-- Boundary tick formula as the specification words it:
`pattern_start + ceil((at_tick − pattern_start) / pattern_ticks) · pattern_ticks`. -/
def specBoundaryTick (patternStart patternTicks atTick : Int) : Int :=
  patternStart + (-((-(atTick - patternStart)) / patternTicks)) * patternTicks

/-- Offset value the code actually produces in PingPong mode after `n ≥ 1`
updates from `(0, 0, +1)` with accumulator `a` and reset `r ≥ 1`: the orbit
is periodic with period `2r`, peaks at `(r−1)·a` (the flip applies the
decrement in the same update) and undershoots to `−a` before returning
to `0`. -/
def pingPongOffset (r : Nat) (a : Int) (n : Nat) : Int :=
  let m := (n - 1) % (2 * r) + 1
  if m < r then (m : Int) * a
  else if m = r then ((r : Int) - 2) * a
  else if m < 2 * r then ((2 * r : Int) - 2 - (m : Int)) * a
  else 0

/-- Default metropolix stage (from `NewMetropolixState`, with trigger gate
length). -/
def egStage : MetroStage :=
  { octave := 4, note := 0, gate := true, pulseCount := 1, ratchets := 1,
    probability := 100, slide := false, gateLength := 0, accumulator := 0,
    accumReset := 0, accumMode := 0 }

/-- Two-stage forward pattern whose first stage slides into the second. -/
def egPatSlide : MetroPattern :=
  { stages := fun i => if i = 0 then { egStage with slide := true }
                       else { egStage with note := 1 },
    length := 2, mode := 0, scale := 1, rootNote := 60, slideTime := 2 }

/-- Metropolix state playing `egPatSlide`. -/
def egStSlide : MetroState :=
  { patterns := fun _ => egPatSlide, pattern := 0, next := -1, stage := 0,
    direction := 1, accum := fun _ => 0, accumCount := fun _ => 0,
    accumDir := fun _ => 1 }

/-- A constant-zero random stream (every probability draw fires when
probability is 100). -/
def rngZero : Rng := fun _ => 0

/-- Freshly cleared metropolix device playing `egPatSlide`. -/
def egDevSlide : MetroDevice := { state := egStSlide }

/-- Metropolix state whose stages have accumulator 1, reset 2, Reset mode. -/
def egStReset : MetroState :=
  { egStSlide with patterns := fun _ =>
      { egPatSlide with stages := fun _ =>
          { egStage with accumulator := 1, accumReset := 2, accumMode := 0 } } }

/-- Metropolix state whose stages have accumulator 1, reset 3, PingPong
mode. -/
def egStPing : MetroState :=
  { egStSlide with patterns := fun _ =>
      { egPatSlide with stages := fun _ =>
          { egStage with accumulator := 1, accumReset := 3, accumMode := 1 } } }

/-- Metropolix state whose first stage has the gate off but slide on. -/
def egStGateOff : MetroState :=
  { egStSlide with patterns := fun _ =>
      { egPatSlide with stages := fun i =>
          if i = 0 then { egStage with gate := false, slide := true }
          else egStage } }

/-- Piano state with one empty 4-beat pattern everywhere. -/
def egPState : PianoState :=
  { patterns := fun _ => { notes := [], length := 4 }, pattern := 0, next := 0,
    editing := 0, centerBeat := 2, centerPitch := 60, viewScale := 2,
    selectedNote := -1, recording := false }

/-- Fresh piano device over `egPState`. -/
def egPDev : PianoDevice := { state := egPState }

/-- Piano device whose editing pattern holds one note starting at beat 2,
viewport set so a pad tap lands at beat 0 on a free pitch. -/
def egPDevPad : PianoDevice :=
  { state := { egPState with
      patterns := fun _ =>
        { notes := [{ start := 2, duration := 1, pitch := 60, velocity := 100 }],
          length := 4 },
      centerBeat := 2, centerPitch := 61, viewScale := 5 } }

/-- Piano device set up for recording: recording on, a pending note on
pitch 60 opened at beat 2. -/
def egPDevRec : PianoDevice :=
  { state := { egPState with
      patterns := fun _ =>
        { notes := [{ start := 2, duration := 1, pitch := 64, velocity := 100 }],
          length := 4 },
      recording := true },
    pending := fun j => if j = 60 then
        some { start := 2, duration := 0, pitch := 60, velocity := 100 }
      else none }

/-- Fresh drum device with sixteen 16-step lanes, nothing active. -/
def egDrumDev : DrumDevice :=
  { state :=
      { patterns := fun _ =>
          { notes := fun _ =>
              { steps := fun _ => { active := false, velocity := 100 },
                length := 16 } },
        playingPatternIdx := 0, next := 0, editingPatternIdx := 0 },
    schedulePatterns := [0] }

/-! ## Basic lemmas -/

theorem updF_apply_same (f : Nat → Int) (i : Nat) (v : Int) :
    updF f i v i = v := by
  simp [updF]

theorem updF_apply_ne (f : Nat → Int) (i j : Nat) (v : Int) (h : j ≠ i) :
    updF f i v j = f j := by
  simp [updF, h]

/-! ## Claim C10: FillUntil below the watermark is a no-op -/

/-- C10.  Calling `FillUntil(t)` on a piano or metropolix device with `t`
at most the device's filled-until watermark leaves the device (queue,
watermark, pattern start tick, scheduled switch tick, state) unchanged. -/
theorem fillUntil_noop_below_watermark (g : Rng) (fuelM fuelP rix : Nat)
    (d : MetroDevice) (p : PianoDevice) (tick : Int)
    (hm : tick ≤ d.queuedUntilTick) (hp : tick ≤ p.queuedUntilTick) :
    metroFillUntil g fuelM rix d tick = (d, rix) ∧
    pianoFillUntil fuelP p tick = p := by
  constructor
  · unfold metroFillUntil
    rw [if_pos hm]
  · unfold pianoFillUntil
    rw [if_pos hp]

/-- Witness for C10 at a concrete cleared device pair and tick 0. -/
theorem fillUntil_noop_below_watermark_witness :
    metroFillUntil rngZero 5 0 egDevSlide 0 = (egDevSlide, 0) ∧
    pianoFillUntil 5 egPDev 0 = egPDev :=
  fillUntil_noop_below_watermark rngZero 5 5 0 egDevSlide egPDev 0
    (by decide) (by decide)

/-! ## Claim C7: QueuePattern ignores out-of-range pattern indices -/

/-- C7.  `QueuePattern` with a pattern index outside `[0, 128)` returns
without modifying the metropolix, piano or drum device in any way. -/
theorem queuePattern_out_of_range_ignored (p atTick : Int) (fuel : Nat)
    (dm : MetroDevice) (dp : PianoDevice) (dd : DrumDevice)
    (h : p < 0 ∨ p ≥ NumPatterns) :
    metroQueuePattern dm p atTick = dm ∧
    pianoQueuePattern dp p atTick = dp ∧
    drumQueuePattern fuel dd p atTick = dd := by
  refine ⟨?_, ?_, ?_⟩
  · unfold metroQueuePattern
    rw [if_pos h]
  · unfold pianoQueuePattern
    rw [if_pos h]
  · unfold drumQueuePattern
    rw [if_pos h]

/-- Witness for C7 at index 128 (first out-of-range value) on concrete
devices. -/
theorem queuePattern_out_of_range_ignored_witness :
    metroQueuePattern egDevSlide 128 0 = egDevSlide ∧
    pianoQueuePattern egPDev 128 0 = egPDev ∧
    drumQueuePattern 4 egDrumDev 128 0 = egDrumDev :=
  queuePattern_out_of_range_ignored 128 0 4 egDevSlide egPDev egDrumDev
    (Or.inr (by decide))

/-! ## Claim C1: queue tick ordering -/

/-- C1.  The metropolix queue is NOT always non-decreasing by tick: after
`ClearQueue` and `FillUntil(1)` on a two-stage forward pattern whose first
stage has `Slide` on and `SlideTime = 2`, the queue holds slide PitchBend
events at ticks 240, 241, 242 followed by the second stage's note events
at tick 240.  The run shown here has all gates on, probability 100,
1 ratchet and trigger gate length. -/
theorem metro_queue_ticks_not_nondecreasing :
    nondecreasing (ticksOf ((metroFillUntil rngZero 1 0 egDevSlide 1).1.queue))
      = false := by
  decide

/-! ## Claim C4: gate-off stages and note events -/

theorem slideEvents_type (st : MetroState) (stage : MetroStage)
    (slideTimePat curStage nxt slideStartTick : Int) (e : MidiEvent)
    (he : e ∈ slideEvents st stage slideTimePat curStage nxt slideStartTick) :
    e.type = pitchBendType := by
  unfold slideEvents at he
  split at he
  · rcases List.mem_append.1 he with h | h
    · rcases List.mem_map.1 h with ⟨i, _, rfl⟩
      rfl
    · rcases List.mem_singleton.1 h with rfl
      rfl
  · simp at he

/-- C4 counterexample.  A metropolix stage with the gate off but `Slide`
set still contributes events (the slide PitchBend ramp), so a gate-off
stage does not contribute "no events at all". -/
theorem gate_off_stage_still_emits_slide_events :
    ((egStGateOff.patterns 0).stages 0).gate = false ∧
    (stepStage rngZero 0 (egStGateOff, 0, 0)).1 ≠ [] := by
  constructor
  · decide
  · decide

/-- C4 (amended).  A metropolix stage whose `Gate` flag is false
contributes no NoteOn or NoteOff events, for every setting of its
ratchets, probability, accumulator and slide parameters; with `Slide` set
it may still contribute PitchBend slide events. -/
theorem gate_off_stage_no_note_events (g : Rng) (st : MetroState)
    (rix : Nat) (patternNum : Nat) (tick : Int)
    (hgate : ((st.patterns patternNum).stages st.stage.toNat).gate = false) :
    ((stepStage g patternNum (st, rix, tick)).1).filter
      (fun e => e.type == noteOnType || e.type == noteOffType) = [] := by
  have hcond : ¬ (((st.patterns patternNum).stages st.stage.toNat).gate ∧
      ((st.patterns patternNum).stages st.stage.toNat).ratchets > 0) := by
    rw [hgate]; simp
  simp only [stepStage, if_neg hcond]
  rw [List.nil_append, List.filter_eq_nil_iff]
  intro e he
  have ht := slideEvents_type _ _ _ _ _ _ e he
  rw [ht]
  decide

/-- Witness for the amended C4 at a concrete gate-off, slide-on stage. -/
theorem gate_off_stage_no_note_events_witness :
    ((stepStage rngZero 0 (egStGateOff, 0, 0)).1).filter
      (fun e => e.type == noteOnType || e.type == noteOffType) = [] :=
  gate_off_stage_no_note_events rngZero egStGateOff 0 0 0 (by decide)

/-! ## Claim C9: nextStage stays in range -/

/-- C9.  For a pattern of positive length and a current stage inside
`[0, length)`, `nextStage` returns a stage index inside `[0, length)` in
every playback mode (forward, reverse, pendulum with any stored direction,
random, and the default branch), for every random stream. -/
theorem nextStage_in_range (st : MetroState) (g : Rng) (rix : Nat)
    (hlen : 1 ≤ (st.patterns st.pattern.toNat).length)
    (hs0 : 0 ≤ st.stage)
    (hs1 : st.stage < (st.patterns st.pattern.toNat).length) :
    0 ≤ (nextStage st g rix).1 ∧
    (nextStage st g rix).1 < (st.patterns st.pattern.toNat).length := by
  set L := (st.patterns st.pattern.toNat).length with hLdef
  have hL : (0 : Int) < L := by omega
  have tmodRange : ∀ x : Int, 0 ≤ x → 0 ≤ x.tmod L ∧ x.tmod L < L := by
    intro x hx
    rw [Int.tmod_eq_emod hx (le_of_lt hL)]
    exact ⟨Int.emod_nonneg x (ne_of_gt hL), Int.emod_lt_of_pos x hL⟩
  have randRange : 0 ≤ randIntn g rix L ∧ randIntn g rix L < L := by
    unfold randIntn
    have hLn : 0 < L.toNat := by omega
    have hmod : g rix % L.toNat < L.toNat := Nat.mod_lt _ hLn
    constructor
    · exact Int.ofNat_nonneg _
    · calc (Int.ofNat (g rix % L.toNat)) < Int.ofNat L.toNat :=
            Int.ofNat_lt.mpr hmod
        _ = L := Int.toNat_of_nonneg (le_of_lt hL)
  simp only [nextStage]
  rw [← hLdef]
  split_ifs <;> simp only [] <;> first
    | exact tmodRange _ (by omega)
    | exact randRange
    | omega

/-- Witness for C9 on a concrete two-stage forward pattern. -/
theorem nextStage_in_range_witness :
    0 ≤ (nextStage egStSlide rngZero 0).1 ∧
    (nextStage egStSlide rngZero 0).1
      < (egStSlide.patterns egStSlide.pattern.toNat).length :=
  nextStage_in_range egStSlide rngZero 0 (by decide) (by decide) (by decide)

/-! ## Claim C5: piano QueuePattern boundary -/

/-- C5 counterexample.  With pattern start 0 and pattern length 3840 ticks
(4 beats), `QueuePattern(1, 3840)` at an exact boundary schedules the
switch at 7680 — one full pattern later — while the specification's ceil
formula gives 3840 (the boundary "at or after" the call tick). -/
theorem piano_boundary_differs_from_ceil_formula :
    (pianoQueuePattern egPDev 1 3840).nextPatternTick = 7680 ∧
    specBoundaryTick egPDev.patternStartTick
      (pianoPatternLengthTicks egPDev.state egPDev.state.pattern.toNat) 3840
      = 3840 ∧
    (7680 : Int) ≠ 3840 := by
  have hT : pianoPatternLengthTicks egPDev.state egPDev.state.pattern.toNat
      = 3840 := by
    norm_num [pianoPatternLengthTicks, egPDev, egPState, truncQ, PPQ]
  have hT' : pianoPatternLengthTicks { egPDev.state with next := 1 }
      ({ egPDev.state with next := 1 } : PianoState).pattern.toNat = 3840 := hT
  refine ⟨?_, ?_, by decide⟩
  · simp only [pianoQueuePattern, hT']
    norm_num [egPDev, egPState, NumPatterns]
  · rw [hT]
    decide

/-- C5 (amended).  For an in-range pattern index and positive pattern
length, `QueuePattern(p, at_tick)` sets the pattern-switch tick to the
strictly-next pattern boundary after `at_tick`
(`pattern_start + (floor((at_tick − pattern_start) / pattern_ticks) + 1) ·
pattern_ticks`, which is one full pattern later than the spec's ceil
formula exactly when `at_tick` falls on a boundary); and exactly when the
filled-until watermark lies past that boundary, the events with tick at or
past the boundary are dropped and the watermark is reset to the boundary. -/
theorem piano_queuePattern_switch_at_next_boundary (d : PianoDevice)
    (p atTick : Int) (hp0 : 0 ≤ p) (hp1 : p < NumPatterns)
    (hT : 0 < pianoPatternLengthTicks d.state d.state.pattern.toNat)
    (hat : d.patternStartTick ≤ atTick) :
    let T := pianoPatternLengthTicks d.state d.state.pattern.toNat
    let B := d.patternStartTick + ((atTick - d.patternStartTick) / T + 1) * T
    (pianoQueuePattern d p atTick).nextPatternTick = B ∧
    atTick < B ∧
    B ≤ atTick + T ∧
    T ∣ (B - d.patternStartTick) ∧
    (pianoQueuePattern d p atTick).state.next = p ∧
    (pianoQueuePattern d p atTick).queuedUntilTick =
      (if B < d.queuedUntilTick then B else d.queuedUntilTick) ∧
    (pianoQueuePattern d p atTick).queue =
      (if B < d.queuedUntilTick then
        d.queue.filter (fun e => decide (e.tick < B)) else d.queue) ∧
    (pianoQueuePattern d p atTick).patternStartTick = d.patternStartTick := by
  intro T B
  have hguard : ¬ (p < 0 ∨ p ≥ NumPatterns) := by omega
  have hTT : pianoPatternLengthTicks { d.state with next := p }
      ({ d.state with next := p } : PianoState).pattern.toNat = T := rfl
  have hBdef : B = d.patternStartTick +
      ((atTick - d.patternStartTick) / T + 1) * T := rfl
  have hd0 : 0 ≤ atTick - d.patternStartTick := by omega
  have key := Int.ediv_add_emod (atTick - d.patternStartTick) T
  have hr0 : 0 ≤ (atTick - d.patternStartTick) % T :=
    Int.emod_nonneg _ (ne_of_gt hT)
  have hr1 : (atTick - d.patternStartTick) % T < T :=
    Int.emod_lt_of_pos _ hT
  have hBval : B = atTick + (T - (atTick - d.patternStartTick) % T) := by
    rw [hBdef]; linear_combination key
  have hBtmod : atTick + (T - (atTick - d.patternStartTick).tmod T) = B := by
    rw [Int.tmod_eq_emod hd0 (le_of_lt hT), hBval]
  simp only [pianoQueuePattern, if_neg hguard, hTT, hBtmod]
  refine ⟨?_, ?_, ?_, ?_, ?_, ?_, ?_, ?_⟩
  · split_ifs <;> rfl
  · linarith [hBval]
  · linarith [hBval]
  · have : B - d.patternStartTick =
        ((atTick - d.patternStartTick) / T + 1) * T := by rw [hBdef]; ring
    rw [this]
    exact dvd_mul_left T _
  · split_ifs <;> rfl
  · split_ifs <;> rfl
  · split_ifs <;> rfl
  · split_ifs <;> rfl

/-- Witness for the amended C5 on a fresh piano device: pattern start 0,
pattern ticks 3840, call at tick 100, boundary 3840. -/
theorem piano_queuePattern_switch_at_next_boundary_witness :
    let T := pianoPatternLengthTicks egPDev.state egPDev.state.pattern.toNat
    let B := egPDev.patternStartTick +
      ((100 - egPDev.patternStartTick) / T + 1) * T
    (pianoQueuePattern egPDev 1 100).nextPatternTick = B ∧
    (100 : Int) < B ∧
    B ≤ 100 + T ∧
    T ∣ (B - egPDev.patternStartTick) ∧
    (pianoQueuePattern egPDev 1 100).state.next = 1 ∧
    (pianoQueuePattern egPDev 1 100).queuedUntilTick =
      (if B < egPDev.queuedUntilTick then B else egPDev.queuedUntilTick) ∧
    (pianoQueuePattern egPDev 1 100).queue =
      (if B < egPDev.queuedUntilTick then
        egPDev.queue.filter (fun e => decide (e.tick < B)) else egPDev.queue) ∧
    (pianoQueuePattern egPDev 1 100).patternStartTick
      = egPDev.patternStartTick :=
  piano_queuePattern_switch_at_next_boundary egPDev 1 100 (by decide)
    (by decide)
    (by norm_num [pianoPatternLengthTicks, egPDev, egPState, truncQ, PPQ])
    (by decide)

/-! ## Claim C8: piano note-list sortedness under edits -/

theorem sortedByStart_insertByStart (n : PNote) (l : List PNote)
    (h : sortedByStart l = true) :
    sortedByStart (insertByStart n l) = true := by
  induction l with
  | nil => rfl
  | cons m ms ih =>
    simp only [insertByStart]
    split_ifs with hlt
    · simp only [sortedByStart, Bool.and_eq_true, decide_eq_true_iff]
      exact ⟨le_of_lt hlt, h⟩
    · push_neg at hlt
      cases ms with
      | nil =>
        simp only [insertByStart, sortedByStart, Bool.and_eq_true,
          decide_eq_true_iff]
        exact ⟨hlt, trivial⟩
      | cons k ks =>
        have hmk : m.start ≤ k.start ∧ sortedByStart (k :: ks) = true := by
          simpa only [sortedByStart, Bool.and_eq_true, decide_eq_true_iff]
            using h
        have ihk := ih hmk.2
        simp only [insertByStart] at ihk ⊢
        split_ifs with hlt2
        · simp only [sortedByStart, Bool.and_eq_true, decide_eq_true_iff]
          exact ⟨hlt, le_of_lt hlt2, hmk.2⟩
        · rw [if_neg hlt2] at ihk
          simp only [sortedByStart, Bool.and_eq_true, decide_eq_true_iff]
          exact ⟨hmk.1, ihk⟩

theorem sortedByStart_sortByStart (l : List PNote) :
    sortedByStart (sortByStart l) = true := by
  induction l with
  | nil => rfl
  | cons n ns ih => exact sortedByStart_insertByStart n _ ih

theorem centerOnSelection_patterns (d : PianoDevice) :
    (centerOnSelection d).state.patterns = d.state.patterns := by
  simp only [centerOnSelection]
  split
  · rcases hg : (d.state.patterns d.state.editing.toNat).notes.get?
        d.state.selectedNote.toNat with _ | n <;> rfl
  · rfl

theorem centerOnSelection_editing (d : PianoDevice) :
    (centerOnSelection d).state.editing = d.state.editing := by
  simp only [centerOnSelection]
  split
  · rcases hg : (d.state.patterns d.state.editing.toNat).notes.get?
        d.state.selectedNote.toNat with _ | n <;> rfl
  · rfl

/-- C8 counterexample.  A pad tap inserting a note at beat 0 behind an
existing note at beat 2 appends it at the end of the list, so right after
this edit operation the notes list is NOT sorted by start. -/
theorem piano_pad_insert_breaks_sorting :
    sortedByStart ((egPDevPad.state.patterns 0).notes) = true ∧
    sortedByStart (((pianoHandlePad egPDevPad 4 2).state.patterns 0).notes)
      = false := by
  constructor
  · rfl
  · have hvs : viewScalesTable.getD (Int.toNat egPDevPad.state.viewScale) 0
        = 1 := rfl
    have hpitch : padPitch egPDevPad.state 4 = 61 := by decide
    have hbeat : padBeat egPDevPad.state 2 = 0 := by
      simp only [padBeat, hvs]
      norm_num [egPDevPad, egPState]
    have hplen : (egPDevPad.state.patterns
        (Int.toNat egPDevPad.state.editing)).length = (4 : ℚ) := rfl
    have hpn : padNote egPDevPad.state 4 2 =
        { start := 0, duration := 1, pitch := 61, velocity := 100 } := by
      simp only [padNote, hvs, hbeat, hpitch]
      norm_num
    have hguard : ¬ (padBeat egPDevPad.state 2 < 0 ∨
        padBeat egPDevPad.state 2 ≥ (egPDevPad.state.patterns
          (Int.toNat egPDevPad.state.editing)).length ∨
        padPitch egPDevPad.state 4 > 127) := by
      rw [hbeat, hpitch, hplen]
      norm_num
    have hov : findOverlap (egPDevPad.state.patterns
          (Int.toNat egPDevPad.state.editing)).notes
        (padPitch egPDevPad.state 4) (padBeat egPDevPad.state 2)
        (padBeat egPDevPad.state 2 +
          viewScalesTable.getD (Int.toNat egPDevPad.state.viewScale) 0)
        = none := by
      rw [hbeat, hpitch, hvs]
      decide
    have hres : ((pianoHandlePad egPDevPad 4 2).state.patterns 0).notes =
        [{ start := 2, duration := 1, pitch := 60, velocity := 100 },
         { start := 0, duration := 1, pitch := 61, velocity := 100 }] := by
      simp only [pianoHandlePad]
      rw [if_neg hguard, hov, centerOnSelection_patterns]
      simp only [updPat]
      rw [hpn]
      decide
    rw [hres]
    decide

/-- C8 (amended).  Pad-based note insertion and MIDI-recording completion
append the new note at the end of the editing pattern's note list without
re-sorting (so the list is sorted afterwards only if the new start is
largest); the `sort.Slice` by start performed at the end of every
`HandleKey` call does re-establish sortedness. -/
theorem piano_edits_append_without_resort (d : PianoDevice)
    (globalTick row col : Int) (ev : MidiEvent) (pn : PNote)
    (hrec : d.state.recording = true)
    (hoff : ev.type = noteOffType)
    (hpend : d.pending ev.note.toNat = some pn)
    (hguard : ¬ (padBeat d.state col < 0 ∨
        padBeat d.state col ≥
          (d.state.patterns d.state.editing.toNat).length ∨
        padPitch d.state row > 127))
    (hnool : findOverlap (d.state.patterns d.state.editing.toNat).notes
        (padPitch d.state row) (padBeat d.state col)
        (padBeat d.state col +
          viewScalesTable.getD d.state.viewScale.toNat 0) = none) :
    ((pianoHandleMIDI d true globalTick ev).state.patterns
        d.state.editing.toNat).notes
      = (d.state.patterns d.state.editing.toNat).notes
        ++ [recordedNote d globalTick pn] ∧
    ((pianoHandlePad d row col).state.patterns d.state.editing.toNat).notes
      = (d.state.patterns d.state.editing.toNat).notes
        ++ [padNote d.state row col] ∧
    sortedByStart (sortByStart
      (((pianoHandlePad d row col).state.patterns
        d.state.editing.toNat).notes)) = true := by
  refine ⟨?_, ?_, sortedByStart_sortByStart _⟩
  · simp only [pianoHandleMIDI, hrec, hoff]
    norm_num [noteOnType, noteOffType]
    rw [hpend]
    simp [updPat]
  · simp only [pianoHandlePad]
    rw [if_neg hguard, hnool, centerOnSelection_patterns]
    simp [updPat]

/-- Witness for the amended C8: a recording device with a pending note on
pitch 60 receives a NoteOff, and a pad tap at a free cell. -/
theorem piano_edits_append_without_resort_witness :
    ((pianoHandleMIDI egPDevRec true 0
        { type := noteOffType, note := 60 }).state.patterns
        egPDevRec.state.editing.toNat).notes
      = (egPDevRec.state.patterns egPDevRec.state.editing.toNat).notes
        ++ [recordedNote egPDevRec 0
              { start := 2, duration := 0, pitch := 60, velocity := 100 }] ∧
    ((pianoHandlePad egPDevRec 0 0).state.patterns
        egPDevRec.state.editing.toNat).notes
      = (egPDevRec.state.patterns egPDevRec.state.editing.toNat).notes
        ++ [padNote egPDevRec.state 0 0] ∧
    sortedByStart (sortByStart
      (((pianoHandlePad egPDevRec 0 0).state.patterns
        egPDevRec.state.editing.toNat).notes)) = true :=
  piano_edits_append_without_resort egPDevRec 0 0 0
    { type := noteOffType, note := 60 }
    { start := 2, duration := 0, pitch := 60, velocity := 100 }
    (by decide) (by decide) (by decide)
    (by
      have hvs : viewScalesTable.getD (Int.toNat egPDevRec.state.viewScale) 0
          = 1/8 := rfl
      have hpitch : padPitch egPDevRec.state 0 = 56 := by decide
      have hbeat : padBeat egPDevRec.state 0 = 3/2 := by
        simp only [padBeat, hvs]
        norm_num [egPDevRec, egPState]
      have hplen : (egPDevRec.state.patterns
          (Int.toNat egPDevRec.state.editing)).length = (4 : ℚ) := rfl
      rw [hbeat, hpitch, hplen]
      norm_num)
    (by
      have hvs : viewScalesTable.getD (Int.toNat egPDevRec.state.viewScale) 0
          = 1/8 := rfl
      have hpitch : padPitch egPDevRec.state 0 = 56 := by decide
      have hbeat : padBeat egPDevRec.state 0 = 3/2 := by
        simp only [padBeat, hvs]
        norm_num [egPDevRec, egPState]
      rw [hbeat, hpitch, hvs]
      decide)

/-! ## Claims C2 and C3: accumulator dynamics -/

theorem applyAccumulator_const (st : MetroState) (i : Nat) :
    (applyAccumulator st i).patterns = st.patterns ∧
    (applyAccumulator st i).pattern = st.pattern ∧
    (applyAccumulator st i).next = st.next ∧
    (applyAccumulator st i).stage = st.stage ∧
    (applyAccumulator st i).direction = st.direction := by
  simp only [applyAccumulator]
  split_ifs <;> exact ⟨rfl, rfl, rfl, rfl, rfl⟩

theorem applyAccumulator_ne (st : MetroState) (i j : Nat) (hj : j ≠ i) :
    (applyAccumulator st i).accum j = st.accum j ∧
    (applyAccumulator st i).accumCount j = st.accumCount j ∧
    (applyAccumulator st i).accumDir j = st.accumDir j := by
  simp only [applyAccumulator, updF]
  split_ifs <;> simp_all [updF]

theorem applyAccumulator_triple (st : MetroState) (i : Nat)
    (ha : ((st.patterns st.pattern.toNat).stages i).accumulator ≠ 0) :
    ((applyAccumulator st i).accum i, (applyAccumulator st i).accumCount i,
      (applyAccumulator st i).accumDir i)
    = accStep ((st.patterns st.pattern.toNat).stages i).accumulator
        ((st.patterns st.pattern.toNat).stages i).accumReset
        ((st.patterns st.pattern.toNat).stages i).accumMode
        (st.accum i, st.accumCount i, st.accumDir i) := by
  simp only [applyAccumulator, accStep, updF, if_neg ha]
  split_ifs <;> simp_all [updF]

theorem accumIter_const (st : MetroState) (i : Nat) (n : Nat) :
    (accumIter st i n).patterns = st.patterns ∧
    (accumIter st i n).pattern = st.pattern ∧
    (accumIter st i n).next = st.next ∧
    (accumIter st i n).stage = st.stage ∧
    (accumIter st i n).direction = st.direction := by
  induction n with
  | zero => exact ⟨rfl, rfl, rfl, rfl, rfl⟩
  | succ n ih =>
    have h := applyAccumulator_const (accumIter st i n) i
    simp only [accumIter]
    exact ⟨h.1.trans ih.1, h.2.1.trans ih.2.1, h.2.2.1.trans ih.2.2.1,
      h.2.2.2.1.trans ih.2.2.2.1, h.2.2.2.2.trans ih.2.2.2.2⟩

theorem accumIter_ne (st : MetroState) (i j : Nat) (hj : j ≠ i) (n : Nat) :
    (accumIter st i n).accum j = st.accum j ∧
    (accumIter st i n).accumCount j = st.accumCount j ∧
    (accumIter st i n).accumDir j = st.accumDir j := by
  induction n with
  | zero => exact ⟨rfl, rfl, rfl⟩
  | succ n ih =>
    have h := applyAccumulator_ne (accumIter st i n) i j hj
    simp only [accumIter]
    exact ⟨h.1.trans ih.1, h.2.1.trans ih.2.1, h.2.2.trans ih.2.2⟩

theorem accumIter_add (st : MetroState) (i : Nat) (m n : Nat) :
    accumIter st i (m + n) = accumIter (accumIter st i m) i n := by
  induction n with
  | zero => rfl
  | succ n ih =>
    rw [show m + (n + 1) = (m + n) + 1 from rfl]
    simp only [accumIter]
    rw [ih]

theorem metroState_ext (s t : MetroState)
    (h1 : s.patterns = t.patterns) (h2 : s.pattern = t.pattern)
    (h3 : s.next = t.next) (h4 : s.stage = t.stage)
    (h5 : s.direction = t.direction) (h6 : s.accum = t.accum)
    (h7 : s.accumCount = t.accumCount) (h8 : s.accumDir = t.accumDir) :
    s = t := by
  cases s; cases t; simp_all

/-- Reset-free phase of the accumulator: starting from count 0, offset `x`
and nonzero direction `d`, the first `k < reset` updates each add
`a · d`, in every accumulator mode. -/
theorem accumIter_phase (st : MetroState) (i : Nat) (a r x d : Int)
    (hsa : ((st.patterns st.pattern.toNat).stages i).accumulator = a)
    (ha : a ≠ 0)
    (hsr : ((st.patterns st.pattern.toNat).stages i).accumReset = r)
    (ho : st.accum i = x) (hc : st.accumCount i = 0)
    (hd : st.accumDir i = d) (hd0 : d ≠ 0) :
    ∀ k : Nat, (k : Int) < r →
      (accumIter st i k).accum i = x + k * a * d ∧
      (accumIter st i k).accumCount i = k ∧
      (accumIter st i k).accumDir i = d := by
  intro k
  induction k with
  | zero =>
    intro _
    refine ⟨?_, hc, hd⟩
    rw [show accumIter st i 0 = st from rfl, ho]
    ring
  | succ k ih =>
    intro hk
    have hk' : (k : Int) < r := by push_cast at hk ⊢; omega
    obtain ⟨iho, ihc, ihd⟩ := ih hk'
    have hcon := accumIter_const st i k
    have ha' : ((( accumIter st i k).patterns
        (accumIter st i k).pattern.toNat).stages i).accumulator ≠ 0 := by
      rw [hcon.1, hcon.2.1, hsa]; exact ha
    have htr := applyAccumulator_triple (accumIter st i k) i ha'
    rw [hcon.1, hcon.2.1, hsa, hsr, iho, ihc, ihd] at htr
    have hstep : accStep a r ((st.patterns st.pattern.toNat).stages i).accumMode
        (x + k * a * d, (k : Int), d)
        = (x + k * a * d + a * d, (k : Int) + 1, d) := by
      simp only [accStep, if_neg hd0]
      rw [if_neg]
      omega
    rw [hstep] at htr
    have h1 := congrArg (·.1) htr
    have h2 := congrArg (·.2.1) htr
    have h3 := congrArg (·.2.2) htr
    simp only [accumIter] at *
    refine ⟨?_, ?_, h3⟩
    · rw [h1]; push_cast; ring
    · rw [h2]; push_cast; ring

theorem accumIter_succ_triple (st : MetroState) (i : Nat)
    (a r m x c d : Int) (n : Nat)
    (hsa : ((st.patterns st.pattern.toNat).stages i).accumulator = a)
    (ha : a ≠ 0)
    (hsr : ((st.patterns st.pattern.toNat).stages i).accumReset = r)
    (hsm : ((st.patterns st.pattern.toNat).stages i).accumMode = m)
    (h1 : (accumIter st i n).accum i = x)
    (h2 : (accumIter st i n).accumCount i = c)
    (h3 : (accumIter st i n).accumDir i = d) :
    ((accumIter st i (n + 1)).accum i, (accumIter st i (n + 1)).accumCount i,
      (accumIter st i (n + 1)).accumDir i) = accStep a r m (x, c, d) := by
  have hcon := accumIter_const st i n
  have ha' : (((accumIter st i n).patterns
      (accumIter st i n).pattern.toNat).stages i).accumulator ≠ 0 := by
    rw [hcon.1, hcon.2.1, hsa]; exact ha
  have htr := applyAccumulator_triple (accumIter st i n) i ha'
  rw [hcon.1, hcon.2.1, hsa, hsr, hsm, h1, h2, h3] at htr
  simpa [accumIter] using htr

theorem accStep_reset0 (a r x c d : Int) (_hd0 : d ≠ 0)
    (hcond : r > 0 ∧ c + 1 ≥ r) :
    accStep a r 0 (x, c, d) = (a, 0, 1) := by
  simp [accStep, hcond]

theorem accStep_pingpong (a r x c d : Int) (hd0 : d ≠ 0)
    (hcond : r > 0 ∧ c + 1 ≥ r) :
    accStep a r 1 (x, c, d) = (x + a * (-d), 0, -d) := by
  simp [accStep, hd0, hcond]

theorem accStep_no_reset (a r m x c d : Int) (hd0 : d ≠ 0)
    (hcond : ¬ (r > 0 ∧ c + 1 ≥ r)) :
    accStep a r m (x, c, d) = (x + a * d, c + 1, d) := by
  simp only [accStep, if_neg hd0, if_neg hcond]

/-- Steady state of the Reset accumulator mode: from `(0, 0, +1)`, after
`n ≥ reset` updates the offset is `((n − reset) mod reset + 1) · a` — the
reset zeroes the offset but the increment still lands in the same update,
so the offset cycles through `a, 2a, …, reset·a` and never rests at 0. -/
theorem accumIter_reset_steady (st : MetroState) (i : Nat) (a r : Int)
    (hsa : ((st.patterns st.pattern.toNat).stages i).accumulator = a)
    (ha : a ≠ 0)
    (hsr : ((st.patterns st.pattern.toNat).stages i).accumReset = r)
    (hr : 1 ≤ r)
    (hsm : ((st.patterns st.pattern.toNat).stages i).accumMode = 0)
    (ho : st.accum i = 0) (hc : st.accumCount i = 0)
    (hd : st.accumDir i = 1) :
    ∀ n : Nat, r.toNat ≤ n →
      (accumIter st i n).accum i
        = (((n - r.toNat) % r.toNat + 1 : Nat) : Int) * a ∧
      (accumIter st i n).accumCount i = (((n - r.toNat) % r.toNat : Nat) : Int) ∧
      (accumIter st i n).accumDir i = 1 := by
  intro n hn
  induction n, hn using Nat.le_induction with
  | base =>
    have hph := accumIter_phase st i a r 0 1 hsa ha hsr ho hc hd one_ne_zero
      (r.toNat - 1) (by omega)
    obtain ⟨p1, p2, p3⟩ := hph
    have hstep := accumIter_succ_triple st i a r 0 _ _ _ (r.toNat - 1)
      hsa ha hsr hsm p1 p2 p3
    rw [accStep_reset0 a r _ _ _ one_ne_zero (by omega)] at hstep
    rw [show (r.toNat - 1) + 1 = r.toNat by omega] at hstep
    simp only [Prod.mk.injEq] at hstep
    refine ⟨?_, ?_, hstep.2.2⟩
    · rw [hstep.1, Nat.sub_self, Nat.zero_mod]
      push_cast; ring
    · rw [hstep.2.1, Nat.sub_self, Nat.zero_mod]; simp
  | succ n hn ih =>
    obtain ⟨iho, ihc, ihd⟩ := ih
    set k := (n - r.toNat) % r.toNat with hkdef
    have hklt : k < r.toNat := Nat.mod_lt _ (by omega)
    have hstep := accumIter_succ_triple st i a r 0 _ _ _ n
      hsa ha hsr hsm iho ihc ihd
    by_cases hk : k + 1 = r.toNat
    · rw [accStep_reset0 a r _ _ _ one_ne_zero (by omega)] at hstep
      simp only [Prod.mk.injEq] at hstep
      have hmod : (n + 1 - r.toNat) % r.toNat = 0 := by
        have hsplit := Nat.div_add_mod (n - r.toNat) r.toNat
        rw [← hkdef] at hsplit
        have hmul : r.toNat * ((n - r.toNat) / r.toNat + 1)
            = r.toNat * ((n - r.toNat) / r.toNat) + r.toNat := by ring
        have : n + 1 - r.toNat = r.toNat * ((n - r.toNat) / r.toNat + 1) := by
          omega
        rw [this, Nat.mul_mod_right]
      rw [hmod]
      refine ⟨?_, ?_, hstep.2.2⟩
      · rw [hstep.1]; push_cast; ring
      · rw [hstep.2.1]; simp
    · rw [accStep_no_reset a r 0 _ _ _ one_ne_zero (by omega)]
        at hstep
      simp only [Prod.mk.injEq] at hstep
      have hmod : (n + 1 - r.toNat) % r.toNat = k + 1 := by
        have hsplit := Nat.div_add_mod (n - r.toNat) r.toNat
        rw [← hkdef] at hsplit
        have : n + 1 - r.toNat = r.toNat * ((n - r.toNat) / r.toNat) + (k + 1) := by
          omega
        rw [this, Nat.mul_add_mod, Nat.mod_eq_of_lt (by omega)]
      rw [hmod]
      refine ⟨?_, ?_, hstep.2.2⟩
      · rw [hstep.1]; push_cast; ring
      · rw [hstep.2.1]; push_cast; ring

/-- C2 counterexample.  With accumulator 1, reset 2, mode Reset, starting
from offset 0 and count 0, after exactly 2 end-of-stage updates the offset
is 1, not 0: the Reset branch zeroes the offset but the increment is still
applied in the same update. -/
theorem metro_reset_mode_offset_not_zero_after_r :
    (accumIter egStReset 0 2).accum 0 = 1 ∧ (1 : Int) ≠ 0 := by
  exact ⟨by decide, by decide⟩

/-- C2 (amended).  For a stage with accumulator `a ≠ 0`, reset `r ≥ 1` and
mode Reset, starting from offset 0, count 0 and direction +1, the offset
after `n ≥ r` end-of-stage updates is `((n − r) mod r + 1) · a`: the Reset
branch zeroes offset, count and direction but does not skip the increment,
so after exactly `r` updates the offset is `a` (not 0) and it cycles
through `a, 2a, …, r·a`, never resting at 0. -/
theorem metro_reset_mode_offset_formula (st : MetroState) (i : Nat)
    (a r : Int) (n : Nat)
    (hsa : ((st.patterns st.pattern.toNat).stages i).accumulator = a)
    (ha : a ≠ 0)
    (hsr : ((st.patterns st.pattern.toNat).stages i).accumReset = r)
    (hr : 1 ≤ r)
    (hsm : ((st.patterns st.pattern.toNat).stages i).accumMode = 0)
    (ho : st.accum i = 0) (hc : st.accumCount i = 0)
    (hd : st.accumDir i = 1) (hn : r.toNat ≤ n) :
    (accumIter st i n).accum i
      = (((n - r.toNat) % r.toNat + 1 : Nat) : Int) * a :=
  (accumIter_reset_steady st i a r hsa ha hsr hr hsm ho hc hd n hn).1

/-- Witness for the amended C2 at accumulator 1, reset 2, after 5
updates: offset `((5 − 2) mod 2 + 1) · 1 = 2`. -/
theorem metro_reset_mode_offset_formula_witness :
    (accumIter egStReset 0 5).accum 0
      = (((5 - (2 : Int).toNat) % (2 : Int).toNat + 1 : Nat) : Int) * 1 :=
  metro_reset_mode_offset_formula egStReset 0 1 2 5 (by decide) (by decide)
    (by decide) (by decide) (by decide) (by decide) (by decide) (by decide)
    (by decide)

/-- After exactly `reset` PingPong updates from `(0, 0, +1)` the offset is
`(r − 2) · a`: the flip applies the decrement in the same update. -/
theorem accumIter_pingpong_r (st : MetroState) (i : Nat) (a r : Int)
    (hsa : ((st.patterns st.pattern.toNat).stages i).accumulator = a)
    (ha : a ≠ 0)
    (hsr : ((st.patterns st.pattern.toNat).stages i).accumReset = r)
    (hr : 1 ≤ r)
    (hsm : ((st.patterns st.pattern.toNat).stages i).accumMode = 1)
    (ho : st.accum i = 0) (hc : st.accumCount i = 0)
    (hd : st.accumDir i = 1) :
    (accumIter st i r.toNat).accum i = (r - 2) * a ∧
    (accumIter st i r.toNat).accumCount i = 0 ∧
    (accumIter st i r.toNat).accumDir i = -1 := by
  have hph := accumIter_phase st i a r 0 1 hsa ha hsr ho hc hd one_ne_zero
    (r.toNat - 1) (by omega)
  obtain ⟨p1, p2, p3⟩ := hph
  have hstep := accumIter_succ_triple st i a r 1 _ _ _ (r.toNat - 1)
    hsa ha hsr hsm p1 p2 p3
  rw [accStep_pingpong a r _ _ _ one_ne_zero (by constructor <;> omega)]
    at hstep
  rw [show (r.toNat - 1) + 1 = r.toNat by omega] at hstep
  simp only [Prod.mk.injEq] at hstep
  refine ⟨?_, hstep.2.1, hstep.2.2⟩
  rw [hstep.1]
  have hcast : ((r.toNat - 1 : Nat) : Int) = r - 1 := by omega
  rw [hcast]; ring

/-- A full PingPong period: after `2 · reset` updates from `(0, 0, +1)`
the whole device state has returned to its starting value. -/
theorem accumIter_pingpong_period (st : MetroState) (i : Nat) (a r : Int)
    (hsa : ((st.patterns st.pattern.toNat).stages i).accumulator = a)
    (ha : a ≠ 0)
    (hsr : ((st.patterns st.pattern.toNat).stages i).accumReset = r)
    (hr : 1 ≤ r)
    (hsm : ((st.patterns st.pattern.toNat).stages i).accumMode = 1)
    (ho : st.accum i = 0) (hc : st.accumCount i = 0)
    (hd : st.accumDir i = 1) :
    accumIter st i (2 * r.toNat) = st := by
  obtain ⟨hA1, hA2, hA3⟩ :=
    accumIter_pingpong_r st i a r hsa ha hsr hr hsm ho hc hd
  have hconA := accumIter_const st i r.toNat
  have hph := accumIter_phase (accumIter st i r.toNat) i a r ((r - 2) * a)
    (-1) (by rw [hconA.1, hconA.2.1]; exact hsa) ha
    (by rw [hconA.1, hconA.2.1]; exact hsr) hA1 hA2 hA3 (by norm_num)
    (r.toNat - 1) (by omega)
  obtain ⟨q1, q2, q3⟩ := hph
  rw [← accumIter_add st i r.toNat (r.toNat - 1)] at q1 q2 q3
  have hstep := accumIter_succ_triple st i a r 1 _ _ _
    (r.toNat + (r.toNat - 1)) hsa ha hsr hsm q1 q2 q3
  rw [accStep_pingpong a r _ _ _ (by norm_num) (by constructor <;> omega)]
    at hstep
  rw [show r.toNat + (r.toNat - 1) + 1 = 2 * r.toNat by omega] at hstep
  simp only [Prod.mk.injEq] at hstep
  have hacc : (accumIter st i (2 * r.toNat)).accum i = 0 := by
    rw [hstep.1]
    have hcast : ((r.toNat - 1 : Nat) : Int) = r - 1 := by omega
    rw [hcast]; ring
  have hcon := accumIter_const st i (2 * r.toNat)
  refine metroState_ext _ _ hcon.1 hcon.2.1 hcon.2.2.1 hcon.2.2.2.1
    hcon.2.2.2.2 ?_ ?_ ?_
  · funext j
    by_cases hj : j = i
    · subst hj; rw [hacc, ho]
    · exact (accumIter_ne st i j hj _).1
  · funext j
    by_cases hj : j = i
    · subst hj; rw [hstep.2.1, hc]
    · exact (accumIter_ne st i j hj _).2.1
  · funext j
    by_cases hj : j = i
    · subst hj; rw [hstep.2.2, hd]; norm_num
    · exact (accumIter_ne st i j hj _).2.2

/-- Offsets over the first PingPong period (`1 ≤ n ≤ 2r`). -/
theorem accumIter_pingpong_first (st : MetroState) (i : Nat) (a r : Int)
    (hsa : ((st.patterns st.pattern.toNat).stages i).accumulator = a)
    (ha : a ≠ 0)
    (hsr : ((st.patterns st.pattern.toNat).stages i).accumReset = r)
    (hr : 1 ≤ r)
    (hsm : ((st.patterns st.pattern.toNat).stages i).accumMode = 1)
    (ho : st.accum i = 0) (hc : st.accumCount i = 0)
    (hd : st.accumDir i = 1) :
    ∀ n : Nat, 1 ≤ n → n ≤ 2 * r.toNat →
      (accumIter st i n).accum i = pingPongOffset r.toNat a n := by
  intro n h1 h2
  have hmlt : n - 1 < 2 * r.toNat := by omega
  have hm : (n - 1) % (2 * r.toNat) + 1 = n := by
    rw [Nat.mod_eq_of_lt hmlt]; omega
  rcases lt_trichotomy n r.toNat with hlt | heq | hgt
  · have hph := (accumIter_phase st i a r 0 1 hsa ha hsr ho hc hd
      one_ne_zero n (by omega)).1
    rw [hph]
    simp only [pingPongOffset, hm, if_pos hlt]
    ring
  · subst heq
    have hA := (accumIter_pingpong_r st i a r hsa ha hsr hr hsm ho hc hd).1
    rw [hA]
    simp only [pingPongOffset, hm]
    have hcast : ((r.toNat : Nat) : Int) = r := by omega
    simp [hcast]
  · by_cases h2r : n = 2 * r.toNat
    · subst h2r
      rw [accumIter_pingpong_period st i a r hsa ha hsr hr hsm ho hc hd, ho]
      simp only [pingPongOffset, hm]
      rw [if_neg (by omega), if_neg (by omega), if_neg (lt_irrefl _)]
    obtain ⟨hA1, hA2, hA3⟩ :=
      accumIter_pingpong_r st i a r hsa ha hsr hr hsm ho hc hd
    have hconA := accumIter_const st i r.toNat
    have hq := (accumIter_phase (accumIter st i r.toNat) i a r ((r - 2) * a)
      (-1) (by rw [hconA.1, hconA.2.1]; exact hsa) ha
      (by rw [hconA.1, hconA.2.1]; exact hsr) hA1 hA2 hA3 (by norm_num)
      (n - r.toNat) (by omega)).1
    rw [← accumIter_add st i r.toNat (n - r.toNat),
      show r.toNat + (n - r.toNat) = n by omega] at hq
    rw [hq]
    simp only [pingPongOffset, hm]
    have hn1 : ¬ (n < r.toNat) := by omega
    have hn2 : ¬ (n = r.toNat) := by omega
    have hn3 : n < 2 * r.toNat := by omega
    rw [if_neg hn1, if_neg hn2, if_pos hn3]
    have hc1 : ((n - r.toNat : Nat) : Int) = (n : Int) - r := by omega
    have hc2 : ((r.toNat : Nat) : Int) = r := by omega
    rw [hc1, hc2]
    ring

/-- C3 counterexample.  With accumulator 1, reset 3, mode PingPong,
starting from `(0, 0, +1)`, after exactly 3 updates the offset is 1, not
`r·a = 3`: the direction flip applies the decrement in the same update,
so the ramp peaks at `(r−1)·a` and never reaches `r·a`. -/
theorem metro_pingpong_offset_not_ra_at_reset :
    (accumIter egStPing 0 3).accum 0 = 1 ∧ (1 : Int) ≠ 3 := by
  exact ⟨by decide, by decide⟩

/-- C3 (amended).  For a stage with accumulator `a ≠ 0`, reset `r ≥ 1` and
mode PingPong, starting from offset 0, count 0 and direction +1, the
offset after `n ≥ 1` end-of-stage updates is `pingPongOffset r a n`: the
sequence `a, 2a, …, (r−1)a, (r−2)a, …, 0, −a, 0` repeating with period
`2r` — it peaks at `(r−1)·a` (not `r·a`, because the flip at count `r`
applies the decrement in the same update) and undershoots to `−a` before
returning to 0. -/
theorem metro_pingpong_offset_formula (st : MetroState) (i : Nat)
    (a r : Int) (n : Nat)
    (hsa : ((st.patterns st.pattern.toNat).stages i).accumulator = a)
    (ha : a ≠ 0)
    (hsr : ((st.patterns st.pattern.toNat).stages i).accumReset = r)
    (hr : 1 ≤ r)
    (hsm : ((st.patterns st.pattern.toNat).stages i).accumMode = 1)
    (ho : st.accum i = 0) (hc : st.accumCount i = 0)
    (hd : st.accumDir i = 1) (hn : 1 ≤ n) :
    (accumIter st i n).accum i = pingPongOffset r.toNat a n := by
  induction n using Nat.strong_induction_on with
  | _ n ih =>
    by_cases hle : n ≤ 2 * r.toNat
    · exact accumIter_pingpong_first st i a r hsa ha hsr hr hsm ho hc hd
        n hn hle
    · have hsplit : n = 2 * r.toNat + (n - 2 * r.toNat) := by omega
      have h2 : accumIter st i n = accumIter st i (n - 2 * r.toNat) := by
        conv_lhs => rw [hsplit]
        rw [accumIter_add,
          accumIter_pingpong_period st i a r hsa ha hsr hr hsm ho hc hd]
      have hmper : (n - 1) % (2 * r.toNat)
          = (n - 2 * r.toNat - 1) % (2 * r.toNat) := by
        conv_lhs => rw [show n - 1 = (n - 2 * r.toNat - 1) + 2 * r.toNat
          by omega]
        rw [Nat.add_mod_right]
      have hform : pingPongOffset r.toNat a n
          = pingPongOffset r.toNat a (n - 2 * r.toNat) := by
        simp only [pingPongOffset, hmper]
      rw [h2, hform]
      exact ih (n - 2 * r.toNat) (by omega) (by omega)

/-- Witness for the amended C3 at accumulator 1, reset 3, after 4
updates: offset `pingPongOffset 3 1 4 = 0`. -/
theorem metro_pingpong_offset_formula_witness :
    (accumIter egStPing 0 4).accum 0 = pingPongOffset (3 : Int).toNat 1 4 :=
  metro_pingpong_offset_formula egStPing 0 1 3 4 (by decide) (by decide)
    (by decide) (by decide) (by decide) (by decide) (by decide) (by decide)
    (by decide)

/-! ## Claim C6: NoteOn pitch formula -/

theorem calculatePitch_bounds (st : MetroState) (stageIdx : Int) :
    0 ≤ calculatePitch st stageIdx ∧ calculatePitch st stageIdx ≤ 127 := by
  simp only [calculatePitch]
  split_ifs <;> omega

theorem u8_calculatePitch (st : MetroState) (stageIdx : Int) :
    u8 (calculatePitch st stageIdx) = calculatePitch st stageIdx := by
  obtain ⟨h0, h1⟩ := calculatePitch_bounds st stageIdx
  unfold u8
  exact Int.emod_eq_of_lt h0 (by omega)

/-- The stage pitch agrees with the specification's formula
`root + scale[note mod |scale|] + 12·(note ÷ |scale|) + 12·(octave − 4) +
offset`, clamped to `[0, 127]`, for a non-negative scale degree and a
non-empty scale table. -/
theorem calculatePitch_spec (st : MetroState) (stageIdx : Int)
    (hnote : 0 ≤ ((st.patterns st.pattern.toNat).stages stageIdx.toNat).note)
    (hlen : 0 < (scalesTable (st.patterns st.pattern.toNat).scale).length) :
    calculatePitch st stageIdx
      = min 127 (max 0 ((st.patterns st.pattern.toNat).rootNote
          + (scalesTable (st.patterns st.pattern.toNat).scale).getD
              ((((st.patterns st.pattern.toNat).stages stageIdx.toNat).note
                % ((scalesTable (st.patterns st.pattern.toNat).scale).length
                    : Int)).toNat) 0
          + 12 * (((st.patterns st.pattern.toNat).stages stageIdx.toNat).note
              / ((scalesTable (st.patterns st.pattern.toNat).scale).length
                  : Int))
          + 12 * ((((st.patterns st.pattern.toNat).stages
              stageIdx.toNat).octave) - 4)
          + st.accum stageIdx.toNat)) := by
  have hlen' : (0 : Int)
      ≤ ((scalesTable (st.patterns st.pattern.toNat).scale).length : Int) := by
    positivity
  have key : ∀ x y : Int, x = y →
      (if (if x < 0 then 0 else x) > 127 then 127
        else (if x < 0 then 0 else x)) = min 127 (max 0 y) := by
    intro x y hxy
    subst hxy
    split_ifs <;> omega
  simp only [calculatePitch, Int.ofNat_eq_natCast]
  rw [Int.tmod_eq_emod hnote hlen', Int.tdiv_eq_ediv hnote hlen']
  refine key _ _ ?_
  ring

theorem ratchetStep_note (g : Rng) (st : MetroState) (stage : MetroStage)
    (currentTick stageTicks ratchetInterval : Int)
    (acc : List MidiEvent × Nat) (r : Nat) (e : MidiEvent)
    (he : e ∈ (ratchetStep g st stage currentTick stageTicks
      ratchetInterval acc r).1) :
    e ∈ acc.1 ∨ e.note = u8 (calculatePitch st st.stage) := by
  simp only [ratchetStep] at he
  split_ifs at he <;>
    first
      | exact Or.inl he
      | (rw [List.mem_append] at he
         rcases he with h | h
         · exact Or.inl h
         · rcases List.mem_cons.1 h with rfl | h2
           · exact Or.inr rfl
           · rcases List.mem_singleton.1 h2 with rfl
             exact Or.inr rfl)

theorem ratchetEvents_note (g : Rng) (rix : Nat) (st : MetroState)
    (stage : MetroStage) (currentTick stageTicks : Int) (e : MidiEvent)
    (he : e ∈ (ratchetEvents g rix st stage currentTick stageTicks).1) :
    e.note = u8 (calculatePitch st st.stage) := by
  have key : ∀ (l : List Nat) (acc : List MidiEvent × Nat) (ri : Int),
      (∀ x ∈ acc.1, x.note = u8 (calculatePitch st st.stage)) →
      ∀ x ∈ (l.foldl (ratchetStep g st stage currentTick stageTicks ri)
        acc).1, x.note = u8 (calculatePitch st st.stage) := by
    intro l
    induction l with
    | nil => intro acc ri hacc x hx; exact hacc x hx
    | cons r rs ih =>
      intro acc ri hacc x hx
      refine ih _ ri ?_ x hx
      intro y hy
      rcases ratchetStep_note g st stage currentTick stageTicks ri acc r y hy
        with h | h
      · exact hacc y h
      · exact h
  exact key _ _ _ (by intro x hx; cases hx) e he

/-- **C6**: every NoteOn event emitted by one metropolix stage step carries
the pitch `root + scale[note mod |scale|] + 12·(note div |scale|) +
12·(octave − 4) + accumulator offset of the stage`, clamped to `[0, 127]`
(for a non-negative scale degree and a non-empty scale; the accumulator
offset is the one in force when the stage fires, i.e. before the
end-of-stage accumulator update). -/
theorem metro_noteOn_pitch_formula (g : Rng) (patternNum : Nat)
    (st : MetroState) (rix : Nat) (tick : Int)
    (hnote : 0 ≤ ((st.patterns st.pattern.toNat).stages st.stage.toNat).note)
    (hlen : 0 < (scalesTable (st.patterns st.pattern.toNat).scale).length) :
    ((stepStage g patternNum (st, rix, tick)).1.all fun e =>
      (e.type != noteOnType) ||
      (e.note == min 127 (max 0 ((st.patterns st.pattern.toNat).rootNote
        + (scalesTable (st.patterns st.pattern.toNat).scale).getD
            ((((st.patterns st.pattern.toNat).stages st.stage.toNat).note
              % ((scalesTable (st.patterns st.pattern.toNat).scale).length
                  : Int)).toNat) 0
        + 12 * (((st.patterns st.pattern.toNat).stages st.stage.toNat).note
            / ((scalesTable (st.patterns st.pattern.toNat).scale).length
                : Int))
        + 12 * ((((st.patterns st.pattern.toNat).stages
            st.stage.toNat).octave) - 4)
        + st.accum st.stage.toNat)))) = true := by
  rw [List.all_eq_true]
  intro e he
  simp only [stepStage] at he
  rw [Bool.or_eq_true, bne_iff_ne, beq_iff_eq]
  rcases List.mem_append.1 he with h | h
  · split_ifs at h
    · right
      have hn := ratchetEvents_note g rix st _ _ _ e h
      rw [hn, u8_calculatePitch, calculatePitch_spec st st.stage hnote hlen]
    · simp at h
  · left
    have ht := slideEvents_type _ _ _ _ _ _ e h
    rw [ht]
    decide

/-- Witness for C6 at the two-stage slide example: both hypotheses hold and
every NoteOn of the first stage step carries the clamped formula pitch. -/
theorem metro_noteOn_pitch_formula_witness :
    (0 ≤ ((egStSlide.patterns egStSlide.pattern.toNat).stages
        egStSlide.stage.toNat).note
      ∧ 0 < (scalesTable (egStSlide.patterns
          egStSlide.pattern.toNat).scale).length)
    ∧ ((stepStage rngZero 0 (egStSlide, 0, 0)).1.all fun e =>
      (e.type != noteOnType) ||
      (e.note == min 127 (max 0 ((egStSlide.patterns
          egStSlide.pattern.toNat).rootNote
        + (scalesTable (egStSlide.patterns
            egStSlide.pattern.toNat).scale).getD
            ((((egStSlide.patterns egStSlide.pattern.toNat).stages
                egStSlide.stage.toNat).note
              % ((scalesTable (egStSlide.patterns
                  egStSlide.pattern.toNat).scale).length : Int)).toNat) 0
        + 12 * (((egStSlide.patterns egStSlide.pattern.toNat).stages
            egStSlide.stage.toNat).note
            / ((scalesTable (egStSlide.patterns
                egStSlide.pattern.toNat).scale).length : Int))
        + 12 * ((((egStSlide.patterns egStSlide.pattern.toNat).stages
            egStSlide.stage.toNat).octave) - 4)
        + egStSlide.accum egStSlide.stage.toNat)))) = true :=
  ⟨⟨by decide, by decide⟩,
    metro_noteOn_pitch_formula rngZero 0 egStSlide 0 0 (by decide) (by decide)⟩
